import Mathlib

/-!
Verification development for the `archy` git-analysis tool
(`src/archy/core/git_ops.py`).

The Python module is shallowly embedded: pure string manipulation is
translated to executable Lean functions over `List Char`, the GitPython
repository handle becomes an explicit `RepoEnv` record of oracle data, the
GitHub CLI fetch becomes an `Except`-valued oracle function, and the
`re` regular-expression calls are translated to an explicit regular
expression datatype with a Brzozowski-derivative matcher.
-/

namespace Archy

/-! ### Basic string helpers (Python string semantics on `List Char`) -/

/-- `subAt needle hay`: `needle` occurs at the head of `hay`. -/
def subAt : List Char → List Char → Bool
  | [], _ => true
  | _ :: _, [] => false
  | c :: cs, d :: ds => c == d && subAt cs ds

/-- Python `needle in hay` for strings: contiguous-substring test. -/
def hasSub (needle : List Char) : List Char → Bool
  | [] => needle.isEmpty
  | d :: ds => subAt needle (d :: ds) || hasSub needle ds

/-- Split at the first occurrence of `needle`, returning the pieces before
and after it; `none` when `needle` does not occur.  This is the portion of
Python `str.split` / lazy regex group extraction the parser relies on. -/
def splitFirst (needle : List Char) : List Char → Option (List Char × List Char)
  | [] => if needle.isEmpty then some ([], []) else none
  | d :: ds =>
    if subAt needle (d :: ds) then some ([], (d :: ds).drop needle.length)
    else match splitFirst needle ds with
      | some (a, b) => some (d :: a, b)
      | none => none

/-- Python `str.split('/')`-style split at every occurrence of one char. -/
def splitOnChar (sep : Char) : List Char → List (List Char)
  | [] => [[]]
  | c :: cs =>
    match splitOnChar sep cs with
    | [] => [[]]
    | g :: gs => if c == sep then [] :: g :: gs else (c :: g) :: gs

/-- Join with a separator char: inverse of `splitOnChar`. -/
def joinChar (sep : Char) : List (List Char) → List Char
  | [] => []
  | [g] => g
  | g :: g2 :: gs => g ++ sep :: joinChar sep (g2 :: gs)

/-- Python whitespace (the characters `str.strip` removes). -/
def isPyWs (c : Char) : Bool :=
  c == ' ' || c == '\t' || c == '\n' || c == '\r' || c == '\x0b' || c == '\x0c'

/-- Python `not s.strip()`: the string is empty after stripping whitespace. -/
def stripIsEmpty (s : List Char) : Bool := s.all isPyWs

/-- Python `s.lower()` (ASCII case folding as used on paths and diffs). -/
def lowerL (s : List Char) : List Char := s.map Char.toLower

/-- Python `s.startswith(p)`. -/
def startsWithL (p s : List Char) : Bool := subAt p s

/-- Python `s.endswith(p)`. -/
def endsWithL (p s : List Char) : Bool := subAt p.reverse s.reverse

/-- Python `s.split(sep)[-1]` (last component; `split` never returns `[]`). -/
def lastComponent (sep : Char) (s : List Char) : List Char :=
  (splitOnChar sep s).getLastD []

/-! ### Regular expressions (Brzozowski derivatives)

The exclusion patterns of `_get_excluded_file_patterns` use only literal
characters, `.` (any char except newline), `(x|y)` groups, `.*` and a final
`$` anchor, matched with `re.match(..., re.IGNORECASE)`. -/

inductive Rx where
  | fail : Rx
  | eps : Rx
  | pred : (Char → Bool) → Rx
  | alt : Rx → Rx → Rx
  | cat : Rx → Rx → Rx
  | star : Rx → Rx

def Rx.nullable : Rx → Bool
  | .fail => false
  | .eps => true
  | .pred _ => false
  | .alt a b => a.nullable || b.nullable
  | .cat a b => a.nullable && b.nullable
  | .star _ => true

def Rx.deriv : Rx → Char → Rx
  | .fail, _ => .fail
  | .eps, _ => .fail
  | .pred f, c => if f c then .eps else .fail
  | .alt a b, c => .alt (a.deriv c) (b.deriv c)
  | .cat a b, c =>
    if a.nullable then .alt (.cat (a.deriv c) b) (b.deriv c)
    else .cat (a.deriv c) b
  | .star a, c => .cat (a.deriv c) (.star a)

/-- Whole-input match. -/
def Rx.acceptsL : Rx → List Char → Bool
  | r, [] => r.nullable
  | r, c :: cs => (r.deriv c).acceptsL cs

/-- Match of some prefix of the input (Python `re.match` without `$`). -/
def Rx.matchHereL : Rx → List Char → Bool
  | r, [] => r.nullable
  | r, c :: cs => r.nullable || (r.deriv c).matchHereL cs

/-- A literal character sequence. -/
def Rx.lit (s : List Char) : Rx := s.foldr (fun c r => Rx.cat (Rx.pred (fun d => d == c)) r) Rx.eps

/-- `.` : any character except newline. -/
def Rx.dot : Rx := Rx.pred (fun c => !(c == '\n'))

/-- `.*` -/
def Rx.dotStar : Rx := Rx.star Rx.dot

/-- `(a|b|...)` over literal alternatives. -/
def Rx.group (ss : List (List Char)) : Rx := ss.foldr (fun s r => Rx.alt (Rx.lit s) r) Rx.fail

/-- A Python pattern as used by `_should_exclude_file`: a core regex plus
whether the pattern ends with the `$` anchor. -/
structure PyRegex where
  core : Rx
  anchoredEnd : Bool

/-- Python `re.match(pat, s, re.IGNORECASE)` for the pattern shapes in this
module: match anchored at the start; with a final `$` the match must end at
the end of the string (or just before one trailing newline); otherwise it may
end anywhere.  `IGNORECASE` is modelled by case-folding the subject (every
pattern in the source is already lower-case once folded). -/
def PyRegex.reMatch (p : PyRegex) (s : List Char) : Bool :=
  let cs := lowerL s
  if p.anchoredEnd then
    p.core.acceptsL cs || (cs.getLast? == some '\n' && p.core.acceptsL cs.dropLast)
  else
    p.core.matchHereL cs

/-! ### Data model (`git_ops.py` dataclasses)

`pathlib.Path` values are modelled as their string form; none of the
operations under verification depend on path normalisation. -/

/-- `ChangeType` enum. -/
inductive ChangeType where
  | added | modified | deleted | renamed
deriving DecidableEq, Repr

/-- `GitChange` dataclass. -/
structure GitChange where
  file_path : String
  change_type : ChangeType
  lines_added : Nat := 0
  lines_removed : Nat := 0
  old_path : Option String := none
deriving DecidableEq, Repr

/-- `GitAnalysis` dataclass. -/
structure GitAnalysis where
  changed_files : List GitChange
  all_tracked_files : List String
  default_branch : String
  current_branch : String
  git_root : String
  total_changes : Nat
  has_changes : Bool
deriving DecidableEq, Repr

/-- `PRChange` dataclass (change type is a free-form string here). -/
structure PRChange where
  file_path : String
  change_type : String
  lines_added : Nat := 0
  lines_removed : Nat := 0
  pr_number : Nat := 0
  repo : String := ""
  old_path : Option String := none
deriving DecidableEq, Repr

/-- `PRDiff` dataclass (after `__post_init__`, `focus_areas` is a list). -/
structure PRDiff where
  repo : String
  number : Nat
  changes : List PRChange
  total_changes : Nat
  summary : String
  description : String := ""
  focus_areas : List String := []
  raw_diff : String := ""
deriving DecidableEq, Repr

/-- `PRDiff.service_name` property: `self.repo.split('/')[-1]`. -/
def PRDiff.service_name (p : PRDiff) : String :=
  String.mk (lastComponent '/' p.repo.data)

/-- `MultiPRAnalysis` dataclass; the two Python dicts are modelled as
insertion-ordered association lists. -/
structure MultiPRAnalysis where
  pr_diffs : List PRDiff
  total_services : Nat
  total_changes : Nat
  cross_service_patterns : List (String × List String)
  service_interactions : List (String × List (String × List String))
deriving DecidableEq, Repr

/-! ### `_get_excluded_file_patterns` / `_should_exclude_file`

Each Python raw-string pattern is transcribed into a `PyRegex`; since
matching is `re.IGNORECASE` and the subject is case-folded, the literal
parts are written in their folded (lower-case) form. -/

/-- `.*X$` shape. -/
def dotStarThen (s : String) : PyRegex := ⟨Rx.cat Rx.dotStar (Rx.lit s.data), true⟩

/-- `X$` shape. -/
def exactly (s : String) : PyRegex := ⟨Rx.lit s.data, true⟩

/-- The fixed list returned by `_get_excluded_file_patterns`. -/
def get_excluded_file_patterns : List PyRegex :=
  [ -- lock files and dependency manifests
    dotStarThen ".lock",                     -- .*\.lock$
    exactly "yarn.lock",                     -- yarn\.lock$
    exactly "package-lock.json",             -- package-lock\.json$
    exactly "pipfile.lock",                  -- Pipfile\.lock$
    exactly "poetry.lock",                   -- poetry\.lock$
    exactly "gemfile.lock",                  -- Gemfile\.lock$
    exactly "composer.lock",                 -- composer\.lock$
    exactly "go.sum",                        -- go\.sum$
    exactly "cargo.lock",                    -- Cargo\.lock$
    -- generated/compiled files
    ⟨Rx.cat Rx.dotStar (Rx.cat (Rx.lit ".min.".data)
        (Rx.group ["js".data, "css".data])), true⟩,     -- .*\.min\.(js|css)$
    ⟨Rx.cat Rx.dotStar (Rx.cat (Rx.lit ".bundle.".data)
        (Rx.group ["js".data, "css".data])), true⟩,     -- .*\.bundle\.(js|css)$
    dotStarThen ".d.ts",                     -- .*\.d\.ts$
    dotStarThen ".map",                      -- .*\.map$
    dotStarThen ".pyc",                      -- .*\.pyc$
    dotStarThen ".pyo",                      -- .*\.pyo$
    dotStarThen ".class",                    -- .*\.class$
    dotStarThen ".o",                        -- .*\.o$
    dotStarThen ".so",                       -- .*\.so$
    dotStarThen ".dll",                      -- .*\.dll$
    -- binary/media files
    ⟨Rx.cat Rx.dotStar (Rx.cat (Rx.lit ".".data)
        (Rx.group ["png".data, "jpg".data, "jpeg".data, "gif".data, "ico".data,
                   "svg".data, "pdf".data, "zip".data, "tar".data, "gz".data])),
      true⟩,                                 -- .*\.(png|jpg|jpeg|gif|ico|svg|pdf|zip|tar|gz)$
    -- IDE and editor files
    ⟨Rx.cat Rx.dotStar (Rx.cat (Rx.lit ".".data)
        (Rx.cat (Rx.group ["vscode".data, "idea".data, "eclipse".data])
                (Rx.cat (Rx.lit "/".data) Rx.dotStar))),
      false⟩,                                -- .*\.(vscode|idea|eclipse)/.*
    dotStarThen ".swp",                      -- .*\.swp$
    dotStarThen ".tmp",                      -- .*\.tmp$
    -- test snapshots and fixtures
    ⟨Rx.cat Rx.dotStar (Rx.cat (Rx.lit "/__snapshots__/".data) Rx.dotStar),
      false⟩,                                -- .*/__snapshots__/.*
    ⟨Rx.cat Rx.dotStar (Rx.cat (Rx.lit "/fixtures/".data)
        (Rx.cat Rx.dotStar (Rx.lit ".json".data))), true⟩,  -- .*/fixtures/.*\.json$
    ⟨Rx.cat Rx.dotStar (Rx.cat (Rx.lit "/mocks/".data)
        (Rx.cat Rx.dotStar (Rx.lit ".json".data))), true⟩ ]  -- .*/mocks/.*\.json$

/-- `_should_exclude_file`. -/
def should_exclude_file (file_path : String) (excluded_patterns : List PyRegex) : Bool :=
  excluded_patterns.any (fun p => p.reMatch file_path.data)

/-! ### `_parse_pr_diff` -/

/-- `s.split('\n')[0]` (a split result is never empty). -/
def firstLineL (s : List Char) : List Char := (splitOnChar '\n' s).headD []

/-- `re.match(r' a/(.*?) b/(.*?)$', line)` group extraction on a
newline-free line: the lazy first group reaches up to the first occurrence
of `" b/"`, the second group takes the rest of the line. -/
def extract_paths (line : List Char) : Option (List Char × List Char) :=
  if startsWithL " a/".data line then
    match splitFirst " b/".data (line.drop 3) with
    | some (g1, g2) => some (g1, g2)
    | none => none
  else none

/-- One `re.findall(r'^\+[^+]', ..., re.MULTILINE)` match at a non-final
line: the class `[^+]` may consume the line's terminating newline, so a line
consisting of the bare marker still matches. -/
def markedInner (mark : Char) (l : List Char) : Bool :=
  match l with
  | [] => false
  | [c] => c == mark
  | c :: d :: _ => c == mark && !(d == mark)

/-- The same match at the final line, where no newline follows: a second
character must be present. -/
def markedLast (mark : Char) (l : List Char) : Bool :=
  match l with
  | c :: d :: _ => c == mark && !(d == mark)
  | _ => false

/-- `len(re.findall(r'^\+[^+]', file_diff, re.MULTILINE))` (with `mark = '+'`;
`mark = '-'` gives the removed-lines pattern), computed over the split lines. -/
def countMarked (mark : Char) : List (List Char) → Nat
  | [] => 0
  | [l] => if markedLast mark l then 1 else 0
  | l :: l2 :: ls => (if markedInner mark l then 1 else 0) + countMarked mark (l2 :: ls)

/-- The body of the per-file-section loop of `_parse_pr_diff`: `none` models
`continue`. -/
def parse_section (repo : String) (number : Nat) (excluded_patterns : List PyRegex)
    (file_diff : List Char) : Option PRChange :=
  if stripIsEmpty file_diff then none
  else
    match extract_paths (firstLineL file_diff) with
    | none => none
    | some (g1, g2) =>
      -- The local `old_path` is `group(1)` when the two groups differ, else
      -- `None`; both the `elif old_path:` classification test and the final
      -- `Path(old_path) if old_path else None` are Python truthiness, which
      -- is also false for the empty string — hence the combined condition
      -- "groups differ and group(1) is non-empty" wherever the source reads
      -- a truthy `old_path`.
      if should_exclude_file (String.mk g2) excluded_patterns then none
      else
        some { file_path := String.mk g2,
               change_type :=
                 if startsWithL " /dev/null".data file_diff then "Added"
                 else if hasSub "/dev/null b/".data (firstLineL file_diff) then "Deleted"
                 else if g1 ≠ g2 ∧ g1 ≠ [] then "Renamed"
                 else "Modified",
               lines_added := countMarked '+' (splitOnChar '\n' file_diff),
               lines_removed := countMarked '-' (splitOnChar '\n' file_diff),
               pr_number := number, repo := repo,
               old_path := if g1 ≠ g2 ∧ g1 ≠ [] then some (String.mk g1) else none }

/-- Reassemble the line groups produced by the section splitter.  `re.split`
removes only the matched marker text, so the newline that precedes a marker
stays at the end of the preceding piece: every group followed by another
marker keeps one trailing newline.  The only group with no lines is a
preamble whose marker sits at the very start of the text, where no newline
precedes it. -/
def joinGroups : List (List (List Char)) → List (List Char)
  | [] => []
  | [g] => [joinChar '\n' g]
  | g :: g2 :: gs =>
    (if g.isEmpty then [] else joinChar '\n' g ++ ['\n']) :: joinGroups (g2 :: gs)

/-- `re.split(r'^diff --git', diff_content, flags=re.MULTILINE)`: cut the
text at every line-start occurrence of the marker, dropping the matched
marker text itself (each piece before a following marker keeps its final
newline, see `joinGroups`). -/
def split_sections (s : List Char) : List (List Char) :=
  let step : (List (List Char) × List (List (List Char))) → List Char →
      (List (List Char) × List (List (List Char))) :=
    fun (cur, done) l =>
      if startsWithL "diff --git".data l then ([l.drop 10], cur.reverse :: done)
      else (l :: cur, done)
  let r := (splitOnChar '\n' s).foldl step ([], [])
  joinGroups ((r.1.reverse :: r.2).reverse)

/-- `_parse_pr_diff`. -/
def parse_pr_diff (diff_content : String) (repo : String) (number : Nat)
    (description : String) (focus_areas : List String)
    (excluded_patterns : List PyRegex) : PRDiff :=
  let changes := ((split_sections diff_content.data).drop 1).filterMap
      (parse_section repo number excluded_patterns)
  let service_name := String.mk (lastComponent '/' repo.data)
  let summary :=
    if description ≠ "" then description ++ " (" ++ toString changes.length ++ " files)"
    else "Changes in " ++ service_name ++ ": " ++ toString changes.length ++ " files modified"
  { repo := repo, number := number, changes := changes, total_changes := changes.length,
    summary := summary, description := description, focus_areas := focus_areas,
    raw_diff := diff_content }

/-! ### Revision diff reader (`get_changed_files`) and repository oracle -/

/-- One entry of a GitPython `base_commit.diff(head_commit)` result, as read
by `get_changed_files`: paths may be absent, the three kind flags mirror
`new_file`/`deleted_file`/`renamed_file`, and `diff` holds the decoded patch
text (`none` models a falsy `item.diff`; `decode(errors="ignore")` cannot
fail, so the `except` arm there is only reachable through lazy-IO failures
outside this pure model). -/
structure DiffItem where
  a_path : Option String := none
  b_path : Option String := none
  new_file : Bool := false
  deleted_file : Bool := false
  renamed_file : Bool := false
  diff : Option String := none
deriving DecidableEq, Repr

/-- Python `a or b` over optional strings (`None` and `""` are falsy). -/
def pyOr (a b : Option String) : Option String :=
  match a with
  | some s => if s == "" then b else some s
  | none => b

/-- Python truthiness of an optional string. -/
def pyTruthy (a : Option String) : Bool :=
  match a with
  | some s => !(s == "")
  | none => false

/-- Python `s.strip()`. -/
def stripL (s : List Char) : List Char :=
  ((s.dropWhile isPyWs).reverse.dropWhile isPyWs).reverse

/-- The line-count scan of `get_changed_files`: lines beginning with the
marker, excluding lines beginning with the tripled marker. -/
def simpleCount (mark : Char) (t : List Char) : Nat :=
  ((splitOnChar '\n' t).filter
    (fun l => startsWithL [mark] l && !startsWithL [mark, mark, mark] l)).length

/-- The `lines_added`/`lines_removed` computation of the per-item loop:
nothing is counted for a falsy `item.diff`. -/
def item_line_counts (d : Option String) : Nat × Nat :=
  match d with
  | some t => if t == "" then (0, 0) else (simpleCount '+' t.data, simpleCount '-' t.data)
  | none => (0, 0)

/-- The body of the per-item loop of `get_changed_files`; `none` models
`continue` (`path_str` is written out in full where the source binds it
locally). -/
def item_to_change (path_filter : Option String) (item : DiffItem) : Option GitChange :=
  if !pyTruthy (pyOr item.a_path item.b_path) then none
  else
    if pyTruthy path_filter &&
        !(startsWithL (path_filter.getD "").data
          ((pyOr item.a_path item.b_path).getD "").data) then
      none
    else
      some { file_path := (pyOr item.a_path item.b_path).getD "",
             change_type :=
               if item.new_file then ChangeType.added
               else if item.deleted_file then ChangeType.deleted
               else if item.renamed_file then ChangeType.renamed
               else ChangeType.modified,
             lines_added := (item_line_counts item.diff).1,
             lines_removed := (item_line_counts item.diff).2,
             old_path := if item.renamed_file && pyTruthy item.a_path then item.a_path
                         else none }

/-- The repository facts `GitRepository` consults, as an oracle record:
`origin_head` is the target branch path of the `origin/HEAD` symbolic
reference (`none` models both a missing ref (`KeyError`) and a failing
`.reference` access (`AttributeError`)); `ref_names` lists `ref.name` over
`repo.refs` — GitPython yields these in short form (`main`, `origin/main`,
`origin/HEAD`), never `refs/heads/...`-prefixed, which is also what makes
the source's `refs["origin/HEAD"]` lookup work; `head_names` lists the
short names of the local branches (`repo.heads`, each of which also appears
in `ref_names`), consulted only by the spec-side resolution order;
`active_branch` is `none` when the access raises (detached HEAD);
`commit_ok rev` says whether `repo.commit(rev)` resolves; `diff_items rev`
is the diff of `repo.commit(rev)` against HEAD; `ls_files` is the raw
`git ls-files` output and `file_exists` the working-tree existence check. -/
structure RepoEnv where
  origin_head : Option String := none
  ref_names : List String := []
  head_names : List String := []
  active_branch : Option String := none
  commit_ok : String → Bool := fun _ => false
  diff_items : String → List DiffItem := fun _ => []
  ls_files : String := ""
  file_exists : String → Bool := fun _ => true

/-- `get_default_branch`, with the `_default_branch` memo cache made
explicit: returns the detected name and the updated cache. -/
def get_default_branch (env : RepoEnv) (cache : Option String) : String × Option String :=
  if pyTruthy cache then (cache.getD "", cache)
  else
    let branch_name :=
      match env.origin_head with
      | some target => String.mk (lastComponent '/' target.data)
      | none =>
        match ["main", "master", "develop"].find?
            (fun c => env.ref_names.contains ("refs/heads/" ++ c)) with
        | some c => c
        | none =>
          match env.active_branch with
          | some n => n
          | none => "main"
    (branch_name, some branch_name)

/-- The base-branch choice at the top of `get_changed_files`
(`if not base_branch: base_branch = self.get_default_branch()`). -/
def resolve_base_branch (env : RepoEnv) (cache : Option String)
    (base_branch : Option String) : String × Option String :=
  if pyTruthy base_branch then (base_branch.getD "", cache)
  else get_default_branch env cache

/-- `get_changed_files` (memo cache threaded through). -/
def get_changed_files (env : RepoEnv) (cache : Option String)
    (base_branch : Option String) (path_filter : Option String) :
    List GitChange × Option String :=
  let (base, cache') := resolve_base_branch env cache base_branch
  let chosen :=
    if env.commit_ok ("origin/" ++ base) then some ("origin/" ++ base)
    else if env.commit_ok base then some base
    else if env.commit_ok "HEAD~1" then some "HEAD~1"
    else none
  match chosen with
  | none => ([], cache')
  | some rev => ((env.diff_items rev).filterMap (item_to_change path_filter), cache')

/-- `get_all_tracked_files`. -/
def get_all_tracked_files (env : RepoEnv) (path_filter : Option String) : List String :=
  (splitOnChar '\n' env.ls_files.data).filterMap (fun item =>
    if (stripL item).isEmpty then none
    else
      let file_path := String.mk (stripL item)
      if pyTruthy path_filter && !(startsWithL (path_filter.getD "").data file_path.data) then
        none
      else if env.file_exists file_path then some file_path else none)

/-- `filter_excluded_patterns` (plain substring patterns, not regexes). -/
def filter_excluded_patterns (files : List String)
    (excluded_patterns : List String) : List String :=
  files.filter (fun f => !(excluded_patterns.any (fun p => hasSub p.data f.data)))

/-- `analyze_repository`; a raised `ArchyGitError` becomes `Except.error`.
`dry_run`, `path` and `git_root` mirror the constructor state of
`GitRepository`; the memo cache is threaded and returned. -/
def analyze_repository (dry_run : Bool) (path : String) (git_root : Option String)
    (env : RepoEnv) (cache : Option String) (path_filter : Option String)
    (excluded_patterns : Option (List String)) :
    Except String (GitAnalysis × Option String) :=
  let excluded := excluded_patterns.getD []
  if dry_run then
    .ok ({ changed_files := [],
           all_tracked_files := [path ++ "/mock_file.py"],
           default_branch := "main", current_branch := "main",
           git_root := (pyOr git_root (some path)).getD "",
           total_changes := 0, has_changes := false }, cache)
  else
    let p := get_default_branch env cache
    match env.active_branch with
    | none => .error "Failed to get current branch"
    | some current_branch =>
      let q := get_changed_files env p.2 (some p.1) path_filter
      let filtered_changes := q.1.filter
        (fun ch => !(excluded.any (fun pat => hasSub pat.data ch.file_path.data)))
      let all_tracked_filtered :=
        filter_excluded_patterns (get_all_tracked_files env path_filter) excluded
      match git_root with
      | none => .error "Git root not found"
      | some root =>
        .ok ({ changed_files := filtered_changes,
               all_tracked_files := all_tracked_filtered,
               default_branch := p.1, current_branch := current_branch,
               git_root := root, total_changes := filtered_changes.length,
               has_changes := filtered_changes.length != 0 }, q.2)

/-! ### `_detect_cross_service_patterns` -/

def isApiSpecPath (fp : List Char) : Bool :=
  (hasSub "swagger".data fp || hasSub "openapi".data fp || hasSub "api-docs".data fp)
  || (endsWithL ".json".data fp && hasSub "api".data fp)

def isApiEndpointPath (fp : List Char) : Bool :=
  hasSub "api".data fp || hasSub "router".data fp || hasSub "controller".data fp ||
  hasSub "endpoint".data fp || hasSub "route".data fp

def isDatabasePath (fp : List Char) : Bool :=
  hasSub "model".data fp || hasSub "schema".data fp || hasSub "migration".data fp ||
  hasSub "db".data fp || hasSub "sql".data fp

def isConfigPath (fp : List Char) : Bool :=
  hasSub "config".data fp || hasSub "env".data fp || hasSub "setting".data fp ||
  hasSub "constant".data fp

/-- The `lines_info` interpolation: `(+X` then `-Y)` when either count is
truthy, else the empty string. -/
def linesInfo (c : PRChange) : String :=
  if c.lines_added != 0 || c.lines_removed != 0 then
    "(+" ++ toString c.lines_added ++ "/-" ++ toString c.lines_removed ++ ")"
  else ""

/-- Entry string of the `api_specifications` category (note the
unconditional space before the lines info). -/
def apiSpecEntry (sn : String) (c : PRChange) : String :=
  sn ++ ": " ++ c.file_path ++ " " ++ linesInfo c

/-- Entry string of the three other categories. -/
def plainEntry (sn : String) (c : PRChange) : String :=
  sn ++ ": " ++ c.file_path

/-- Accumulators `(api_specifications, api_endpoints, database_changes,
config_changes)` of the classification loop in
`_detect_cross_service_patterns`, one `elif`-chain step. -/
def crossStep : (List String × List String × List String × List String) →
    (String × PRChange) → List String × List String × List String × List String
  | (a, e, d, g), (sn, c) =>
    if isApiSpecPath (lowerL c.file_path.data) then (a ++ [apiSpecEntry sn c], e, d, g)
    else if isApiEndpointPath (lowerL c.file_path.data) then (a, e ++ [plainEntry sn c], d, g)
    else if isDatabasePath (lowerL c.file_path.data) then (a, e, d ++ [plainEntry sn c], g)
    else if isConfigPath (lowerL c.file_path.data) then (a, e, d, g ++ [plainEntry sn c])
    else (a, e, d, g)

/-- The iteration order of the two nested loops. -/
def changePairs (pr_diffs : List PRDiff) : List (String × PRChange) :=
  pr_diffs.flatMap (fun pr => pr.changes.map (fun c => (pr.service_name, c)))

/-- `_detect_cross_service_patterns`. -/
def detect_cross_service_patterns (pr_diffs : List PRDiff) :
    List (String × List String) :=
  let r := (changePairs pr_diffs).foldl crossStep ([], [], [], [])
  (if !r.1.isEmpty then [("api_specifications", r.1)] else []) ++
  (if !r.2.1.isEmpty then [("api_endpoints", r.2.1)] else []) ++
  (if !r.2.2.1.isEmpty then [("database_changes", r.2.2.1)] else []) ++
  (if !r.2.2.2.isEmpty then [("config_changes", r.2.2.2)] else [])

/-! ### `_detect_service_interactions` -/

/-- Python dict assignment `m[k] = v` on an insertion-ordered dict. -/
def pyInsert {α : Type} (m : List (String × α)) (k : String) (v : α) :
    List (String × α) :=
  if m.any (fun q => q.1 == k) then m.map (fun q => if q.1 == k then (k, v) else q)
  else m ++ [(k, v)]

/-- The evidence list `calls` collected for the ordered pair `(pr, other)`. -/
def callsFor (pr other : PRDiff) : List String :=
  (pr.changes.filterMap (fun c =>
    if hasSub (lowerL other.service_name.data) (lowerL c.file_path.data) then
      some ("File reference: " ++ c.file_path)
    else none)) ++
  (if hasSub (lowerL other.service_name.data) (lowerL pr.raw_diff.data) then
    ["Code references to " ++ other.service_name]
  else [])

/-- The inner dict built for one `pr_diff`. -/
def interactions_for (pr_diffs : List PRDiff) (pr : PRDiff) :
    List (String × List String) :=
  pr_diffs.foldl (fun si other =>
    if other.service_name == pr.service_name then si
    else
      let calls := callsFor pr other
      if !calls.isEmpty then pyInsert si other.service_name calls else si) []

/-- `_detect_service_interactions`. -/
def detect_service_interactions (pr_diffs : List PRDiff) :
    List (String × List (String × List String)) :=
  pr_diffs.foldl (fun acc pr =>
    let si := interactions_for pr_diffs pr
    if !si.isEmpty then pyInsert acc pr.service_name si else acc) []

/-! ### `analyze_pull_requests` -/

/-- One element of the `pr_specs` argument (a dict with keys `repo`,
`number` and optional `description`, `focus_areas`). -/
structure PRSpec where
  repo : String
  number : Nat
  description : String := ""
  focus_areas : List String := []
deriving DecidableEq, Repr

/-- The per-spec step: fetch the diff through the `gh` CLI oracle
(`Except.error` models the `ArchyGitError` raised on non-zero exit, timeout
or a missing tool) and parse it, or build the failure placeholder. -/
def pr_diff_for (fetch : String → Nat → Except String String)
    (excluded_patterns : List PyRegex) (sp : PRSpec) : PRDiff :=
  match fetch sp.repo sp.number with
  | .ok diff_content =>
    parse_pr_diff diff_content sp.repo sp.number sp.description sp.focus_areas
      excluded_patterns
  | .error e =>
    { repo := sp.repo, number := sp.number, changes := [], total_changes := 0,
      summary := "Failed to fetch PR: " ++ e, description := sp.description,
      focus_areas := sp.focus_areas, raw_diff := "" }

/-- The fixed mock `MultiPRAnalysis` returned in dry-run mode. -/
def mockMultiPRAnalysis : MultiPRAnalysis :=
  { pr_diffs := [{ repo := "mock/service-1", number := 123, changes := [],
                   total_changes := 0, summary := "Mock PR for testing",
                   raw_diff := "# Mock diff content for testing" }],
    total_services := 1, total_changes := 0,
    cross_service_patterns := [], service_interactions := [] }

/-- `analyze_pull_requests`. -/
def analyze_pull_requests (dry_run : Bool)
    (fetch : String → Nat → Except String String)
    (pr_specs : List PRSpec) : MultiPRAnalysis :=
  if dry_run then mockMultiPRAnalysis
  else
    let excluded_patterns := get_excluded_file_patterns
    let pr_diffs := pr_specs.map (pr_diff_for fetch excluded_patterns)
    { pr_diffs := pr_diffs,
      total_services := ((pr_diffs.map PRDiff.service_name).dedup).length,
      total_changes := (pr_diffs.map PRDiff.total_changes).sum,
      cross_service_patterns := detect_cross_service_patterns pr_diffs,
      service_interactions := detect_service_interactions pr_diffs }

/-! ### Characterization helpers used by the theorems -/

/-- The service name an input PR specification will carry in the result,
failed fetch or not. -/
def spec_service_name (sp : PRSpec) : String :=
  String.mk (lastComponent '/' sp.repo.data)

/-- The first-match guard of the `api_specifications` accumulator: what one
loop iteration contributes to it. -/
def specEntryOf (p : String × PRChange) : Option String :=
  if isApiSpecPath (lowerL p.2.file_path.data) then some (apiSpecEntry p.1 p.2)
  else none

/-- The `api_endpoints` contribution: endpoint keywords matched and the
API-specification category did not. -/
def endpointEntryOf (p : String × PRChange) : Option String :=
  if !isApiSpecPath (lowerL p.2.file_path.data) &&
      isApiEndpointPath (lowerL p.2.file_path.data) then some (plainEntry p.1 p.2)
  else none

/-- The `database_changes` contribution (no earlier category matched). -/
def dbEntryOf (p : String × PRChange) : Option String :=
  if !isApiSpecPath (lowerL p.2.file_path.data) &&
      !isApiEndpointPath (lowerL p.2.file_path.data) &&
      isDatabasePath (lowerL p.2.file_path.data) then some (plainEntry p.1 p.2)
  else none

/-- The `config_changes` contribution (no earlier category matched). -/
def cfgEntryOf (p : String × PRChange) : Option String :=
  if !isApiSpecPath (lowerL p.2.file_path.data) &&
      !isApiEndpointPath (lowerL p.2.file_path.data) &&
      !isDatabasePath (lowerL p.2.file_path.data) &&
      isConfigPath (lowerL p.2.file_path.data) then some (plainEntry p.1 p.2)
  else none

/-- The full `api_specifications` list. -/
def apiSpecList (pr_diffs : List PRDiff) : List String :=
  (changePairs pr_diffs).filterMap specEntryOf

/-- The full `api_endpoints` list. -/
def apiEndpointList (pr_diffs : List PRDiff) : List String :=
  (changePairs pr_diffs).filterMap endpointEntryOf

/-- The full `database_changes` list. -/
def databaseList (pr_diffs : List PRDiff) : List String :=
  (changePairs pr_diffs).filterMap dbEntryOf

/-- The full `config_changes` list. -/
def configList (pr_diffs : List PRDiff) : List String :=
  (changePairs pr_diffs).filterMap cfgEntryOf

/-- What one inner-loop iteration contributes to the per-service
interaction dict. -/
def interactionEntryOf (pr other : PRDiff) : Option (String × List String) :=
  if !(other.service_name == pr.service_name) && !(callsFor pr other).isEmpty then
    some (other.service_name, callsFor pr other)
  else none

/-- The association list `interactions_for` produces once every service name
is distinct: one entry per other service with non-empty evidence. -/
def interactionsList (pr_diffs : List PRDiff) (pr : PRDiff) :
    List (String × List String) :=
  pr_diffs.filterMap (interactionEntryOf pr)

/-- What one outer-loop iteration contributes. -/
def outerEntryOf (pr_diffs : List PRDiff) (pr : PRDiff) :
    Option (String × List (String × List String)) :=
  if !(interactions_for pr_diffs pr).isEmpty then
    some (pr.service_name, interactions_for pr_diffs pr)
  else none

/-- The association list `detect_service_interactions` produces once every
service name is distinct. -/
def serviceInteractionsList (pr_diffs : List PRDiff) :
    List (String × List (String × List String)) :=
  pr_diffs.filterMap (outerEntryOf pr_diffs)

/-! ### Concrete fixtures used by witnesses and counterexamples -/

/-- A two-file diff: one ordinary source change plus a `yarn.lock` section
that the exclusion patterns drop. -/
def fixtureDiff : String :=
  "diff --git a/src/app.py b/src/app.py\nindex 1..2 100644\n--- a/src/app.py\n+++ b/src/app.py\n@@ -1,2 +1,3 @@\n line\n+added\n-removed\ndiff --git a/yarn.lock b/yarn.lock\n--- a/yarn.lock\n+++ b/yarn.lock\n+x\n"

/-- A pure rename section. -/
def renameDiff : String :=
  "diff --git a/old.py b/new.py\nsimilarity index 100%\nrename from old.py\nrename to new.py\n"

/-- A fetch oracle that fails for the first repository and succeeds with an
API-specification change for the second. -/
def fixtureFetch : String → Nat → Except String String := fun r _ =>
  if r == "own/alpha" then .error "exit 1"
  else .ok "diff --git a/api/openapi.json b/api/openapi.json\n--- a/api/openapi.json\n+++ b/api/openapi.json\n+x\n"

/-- The two PR specifications of the failure scenario. -/
def fixtureSpecs : List PRSpec :=
  [{ repo := "own/alpha", number := 1 }, { repo := "own/beta", number := 2 }]

/-- The API-specification change of the successfully fetched PR. -/
def fixtureOpenapiChange : PRChange :=
  { file_path := "api/openapi.json", change_type := "Modified",
    lines_added := 1, lines_removed := 0, pr_number := 2, repo := "own/beta",
    old_path := none }

/-- The successfully fetched PR of the failure scenario, carrying one
API-specification change. -/
def fixtureOpenapiPR : PRDiff :=
  { repo := "own/beta", number := 2, changes := [fixtureOpenapiChange],
    total_changes := 1, summary := "" }

/-- The change of service `A` whose path mentions service `b-service`. -/
def fixtureClientChange : PRChange :=
  { file_path := "services/b-service/client.py", change_type := "Modified" }

/-- Service `A` whose changed file path mentions service `b-service`. -/
def fixturePRA : PRDiff :=
  { repo := "x/A", number := 1, changes := [fixtureClientChange],
    total_changes := 1, summary := "" }

/-- One per-file section of `renameDiff` as the section splitter delivers
it (marker text removed). -/
def fixtureRenameSection : List Char :=
  " a/old.py b/new.py\nsimilarity index 100%\nrename from old.py\nrename to new.py".data

/-- A GitPython diff item describing the same pure rename. -/
def fixtureRenameItem : DiffItem :=
  { a_path := some "old.py", b_path := some "new.py", renamed_file := true }

/-- The `GitChange` produced for `fixtureRenameItem`. -/
def fixtureRenameGitChange : GitChange :=
  { file_path := "old.py", change_type := ChangeType.renamed,
    old_path := some "old.py" }

/-- The `PRChange` produced for `fixtureRenameSection`. -/
def fixtureRenamePRChange : PRChange :=
  { file_path := "new.py", change_type := "Renamed", lines_added := 0,
    lines_removed := 0, pr_number := 1, repo := "o/s", old_path := some "old.py" }

/-- The surviving change of `fixtureDiff`. -/
def fixtureAppChange : PRChange :=
  { file_path := "src/app.py", change_type := "Modified", lines_added := 1,
    lines_removed := 1, pr_number := 7, repo := "o/svc", old_path := none }

/-- Service `b-service` with no changes. -/
def fixturePRB : PRDiff :=
  { repo := "x/b-service", number := 2, changes := [], total_changes := 0,
    summary := "" }

/-! ## Theorems -/

set_option maxRecDepth 100000

/-- C3: for every `MultiPRAnalysis` returned by `analyze_pull_requests`,
`total_services` is the cardinality of the set of `service_name` values over
`pr_diffs` (hence at most `len(pr_diffs)`), and `total_changes` is the sum
of the per-PR `total_changes`. -/
theorem C3_totals (dry_run : Bool) (fetch : String → Nat → Except String String)
    (pr_specs : List PRSpec) :
    (analyze_pull_requests dry_run fetch pr_specs).total_services =
      ((analyze_pull_requests dry_run fetch pr_specs).pr_diffs.map
        PRDiff.service_name).toFinset.card ∧
    (analyze_pull_requests dry_run fetch pr_specs).total_services ≤
      (analyze_pull_requests dry_run fetch pr_specs).pr_diffs.length ∧
    (analyze_pull_requests dry_run fetch pr_specs).total_changes =
      ((analyze_pull_requests dry_run fetch pr_specs).pr_diffs.map
        PRDiff.total_changes).sum := by
  cases dry_run
  · exact ⟨(List.card_toFinset _).symm,
      le_trans (List.Sublist.length_le (List.dedup_sublist _))
        (le_of_eq (List.length_map _ _)), rfl⟩
  · have h : analyze_pull_requests true fetch pr_specs = mockMultiPRAnalysis := rfl
    rw [h]
    exact ⟨by decide, by decide, by decide⟩

/-- A needle occurs at the head of any extension of itself. -/
theorem subAt_self_append (n m : List Char) : subAt n (n ++ m) = true := by
  induction n with
  | nil => rfl
  | cons c cs ih => simp [subAt, ih]

/-- A needle occurs in any extension of itself. -/
theorem hasSub_self_append (n m : List Char) : hasSub n (n ++ m) = true := by
  cases n with
  | nil => cases m with
    | nil => rfl
    | cons d ds => rfl
  | cons c cs =>
    show (subAt (c :: cs) ((c :: cs) ++ m) || _) = true
    rw [subAt_self_append]
    rfl

/-- The failure-placeholder summary contains the fixed error prefix. -/
theorem hasSub_failed_summary (e : String) :
    hasSub "Failed to fetch PR".data ("Failed to fetch PR: " ++ e).data = true := by
  have h : ("Failed to fetch PR: " ++ e).data
      = "Failed to fetch PR".data ++ (": ".data ++ e.data) := by
    rw [String.data_append]
    have h2 : ("Failed to fetch PR: ").data
        = ("Failed to fetch PR").data ++ (": ").data := by decide
    rw [h2, List.append_assoc]
  rw [h]
  exact hasSub_self_append _ _

/-- Fetch success or failure, the produced entry keeps the spec's
repository-derived service name. -/
theorem pr_diff_for_service_name (fetch : String → Nat → Except String String)
    (pats : List PyRegex) (sp : PRSpec) :
    (pr_diff_for fetch pats sp).service_name = spec_service_name sp := by
  unfold pr_diff_for
  cases fetch sp.repo sp.number with
  | ok c => rfl
  | error e => rfl

/-- C2: a failed fetch does not abort the batch: the result has exactly one
entry per input specification, in input order; the failed specification's
entry is a placeholder with no changes, `total_changes = 0` and a summary
containing "Failed to fetch PR"; and `total_services` still counts the
failed specification's service name (it is computed from all the specs'
service names). -/
theorem C2_failure_placeholder (fetch : String → Nat → Except String String)
    (pr_specs : List PRSpec) (i : Nat) (hi : i < pr_specs.length) (e : String)
    (hfail : fetch (pr_specs.get ⟨i, hi⟩).repo (pr_specs.get ⟨i, hi⟩).number
      = .error e) :
    (analyze_pull_requests false fetch pr_specs).pr_diffs.length
      = pr_specs.length ∧
    (analyze_pull_requests false fetch pr_specs).pr_diffs.map PRDiff.service_name
      = pr_specs.map spec_service_name ∧
    (analyze_pull_requests false fetch pr_specs).total_services
      = (pr_specs.map spec_service_name).dedup.length ∧
    ∃ hj : i < (analyze_pull_requests false fetch pr_specs).pr_diffs.length,
      ((analyze_pull_requests false fetch pr_specs).pr_diffs.get ⟨i, hj⟩
        = { repo := (pr_specs.get ⟨i, hi⟩).repo,
            number := (pr_specs.get ⟨i, hi⟩).number, changes := [],
            total_changes := 0, summary := "Failed to fetch PR: " ++ e,
            description := (pr_specs.get ⟨i, hi⟩).description,
            focus_areas := (pr_specs.get ⟨i, hi⟩).focus_areas, raw_diff := "" }) ∧
      hasSub "Failed to fetch PR".data
        ((analyze_pull_requests false fetch pr_specs).pr_diffs.get
          ⟨i, hj⟩).summary.data = true := by
  have hmap0 : (pr_specs.map (pr_diff_for fetch get_excluded_file_patterns)).map
      PRDiff.service_name = pr_specs.map spec_service_name := by
    rw [List.map_map]
    exact List.map_congr_left (fun sp _ => pr_diff_for_service_name _ _ sp)
  have hmap : (analyze_pull_requests false fetch pr_specs).pr_diffs.map
      PRDiff.service_name = pr_specs.map spec_service_name := hmap0
  have hlen : (analyze_pull_requests false fetch pr_specs).pr_diffs.length
      = pr_specs.length := List.length_map _ _
  refine ⟨hlen, hmap, ?_, ?_⟩
  · show ((pr_specs.map (pr_diff_for fetch get_excluded_file_patterns)).map
        PRDiff.service_name).dedup.length = _
    rw [hmap0]
  · refine ⟨lt_of_lt_of_eq hi hlen.symm, ?_, ?_⟩
    · have hget : (analyze_pull_requests false fetch pr_specs).pr_diffs.get
          ⟨i, lt_of_lt_of_eq hi hlen.symm⟩
          = pr_diff_for fetch get_excluded_file_patterns (pr_specs.get ⟨i, hi⟩) :=
        List.getElem_map _
      rw [hget]
      unfold pr_diff_for
      rw [hfail]
    · have hget : (analyze_pull_requests false fetch pr_specs).pr_diffs.get
          ⟨i, lt_of_lt_of_eq hi hlen.symm⟩
          = pr_diff_for fetch get_excluded_file_patterns (pr_specs.get ⟨i, hi⟩) :=
        List.getElem_map _
      rw [hget]
      unfold pr_diff_for
      rw [hfail]
      exact hasSub_failed_summary e

/-- C2 witness: the two-spec batch where the first fetch fails with exit
code 1. -/
theorem C2_failure_placeholder_witness :
    fixtureFetch "own/alpha" 1 = .error "exit 1" ∧
    (analyze_pull_requests false fixtureFetch fixtureSpecs).pr_diffs.length = 2 ∧
    (analyze_pull_requests false fixtureFetch fixtureSpecs).total_services
      = (fixtureSpecs.map spec_service_name).dedup.length := by
  have h := C2_failure_placeholder fixtureFetch fixtureSpecs 0 (by decide)
    "exit 1" rfl
  exact ⟨rfl, h.1, h.2.2.1⟩

/-- C10: with `dry_run = True`, `analyze_repository` returns the fixed mock
analysis (no changed files, zero total, `has_changes = False`, both branch
names `main`) and `analyze_pull_requests` returns the fixed mock
`MultiPRAnalysis` with a single placeholder `PRDiff`, independently of every
repository/CLI oracle. -/
theorem C10_dry_run (path : String) (git_root : Option String) (env : RepoEnv)
    (cache : Option String) (path_filter : Option String)
    (excluded_patterns : Option (List String))
    (fetch : String → Nat → Except String String) (pr_specs : List PRSpec) :
    analyze_repository true path git_root env cache path_filter excluded_patterns =
      .ok ({ changed_files := [],
             all_tracked_files := [path ++ "/mock_file.py"],
             default_branch := "main", current_branch := "main",
             git_root := (pyOr git_root (some path)).getD "",
             total_changes := 0, has_changes := false }, cache) ∧
    analyze_pull_requests true fetch pr_specs =
      { pr_diffs := [{ repo := "mock/service-1", number := 123, changes := [],
                       total_changes := 0, summary := "Mock PR for testing",
                       description := "", focus_areas := [],
                       raw_diff := "# Mock diff content for testing" }],
        total_services := 1, total_changes := 0,
        cross_service_patterns := [], service_interactions := [] } :=
  ⟨rfl, rfl⟩

/-- A character split never produces the empty list of groups. -/
theorem splitOnChar_ne_nil (sep : Char) (s : List Char) : splitOnChar sep s ≠ [] := by
  cases s with
  | nil => simp [splitOnChar]
  | cons c cs =>
    unfold splitOnChar
    cases h : splitOnChar sep cs with
    | nil => simp
    | cons g gs => by_cases hc : (c == sep) = true <;> simp [hc]

/-- One unfolding step of `firstLineL`. -/
theorem firstLineL_cons (c : Char) (cs : List Char) :
    firstLineL (c :: cs) = if (c == '\n') = true then [] else c :: firstLineL cs := by
  cases h : splitOnChar '\n' cs with
  | nil => exact absurd h (splitOnChar_ne_nil _ _)
  | cons g gs =>
    have h2 : splitOnChar '\n' (c :: cs)
        = if (c == '\n') = true then [] :: g :: gs else (c :: g) :: gs := by
      unfold splitOnChar
      rw [h]
    have hcs : firstLineL cs = g := by unfold firstLineL; rw [h]; rfl
    show (splitOnChar '\n' (c :: cs)).headD [] = _
    rw [h2, hcs]
    by_cases hc : (c == '\n') = true
    · rw [if_pos hc, if_pos hc]
      rfl
    · rw [if_neg hc, if_neg hc]
      rfl

/-- The first line is the longest newline-free prefix. -/
theorem firstLineL_eq_takeWhile (s : List Char) :
    firstLineL s = s.takeWhile (fun c => !(c == '\n')) := by
  induction s with
  | nil => rfl
  | cons c cs ih =>
    rw [firstLineL_cons, List.takeWhile_cons]
    by_cases hc : (c == '\n') = true
    · simp [hc]
    · simp [hc, ih]

/-- The first line is a prefix of the whole text. -/
theorem firstLineL_prefix (s : List Char) : firstLineL s <+: s := by
  rw [firstLineL_eq_takeWhile]
  exact List.takeWhile_prefix _

/-- A successful path extraction implies the line carries the ` a/` header
prefix. -/
theorem extract_paths_startsWith (line : List Char) (g : List Char × List Char)
    (h : extract_paths line = some g) : startsWithL " a/".data line = true := by
  unfold extract_paths at h
  by_cases hs : startsWithL " a/".data line = true
  · exact hs
  · rw [if_neg hs] at h
    exact absurd h (by simp)

/-- A section whose first line carries the ` a/` header prefix cannot itself
begin with ` /dev/null`: the `"Added"` arm of the classification is
unreachable for any section from which paths were extracted. -/
theorem devnull_start_false (fd : List Char)
    (h : startsWithL " a/".data (firstLineL fd) = true) :
    startsWithL " /dev/null".data fd = false := by
  obtain ⟨t, ht⟩ := firstLineL_prefix fd
  cases hfl : firstLineL fd with
  | nil => rw [hfl] at h; exact absurd h (by decide)
  | cons x xs =>
    cases xs with
    | nil =>
      rw [hfl] at h
      simp only [startsWithL, subAt, Bool.and_eq_true] at h
      exact absurd h.2 (by simp [subAt])
    | cons y ys =>
      rw [hfl] at h
      simp only [startsWithL, subAt, Bool.and_eq_true, beq_iff_eq] at h
      obtain ⟨hx, hy, _⟩ := h
      rw [hfl] at ht
      rw [← ht, ← hx, ← hy]
      simp [startsWithL, subAt]

/-- Inversion of `parse_section`: every emitted change comes from a
non-blank section with successfully extracted paths that survived the
exclusion filter, and its fields are exactly the parser's. -/
theorem parse_section_eq_some (repo : String) (n : Nat) (pats : List PyRegex)
    (fd : List Char) (c : PRChange) (h : parse_section repo n pats fd = some c) :
    ∃ g1 g2, extract_paths (firstLineL fd) = some (g1, g2) ∧
      stripIsEmpty fd = false ∧
      should_exclude_file (String.mk g2) pats = false ∧
      c = { file_path := String.mk g2,
            change_type :=
              if startsWithL " /dev/null".data fd then "Added"
              else if hasSub "/dev/null b/".data (firstLineL fd) then "Deleted"
              else if g1 ≠ g2 ∧ g1 ≠ [] then "Renamed"
              else "Modified",
            lines_added := countMarked '+' (splitOnChar '\n' fd),
            lines_removed := countMarked '-' (splitOnChar '\n' fd),
            pr_number := n, repo := repo,
            old_path := if g1 ≠ g2 ∧ g1 ≠ [] then some (String.mk g1) else none } := by
  unfold parse_section at h
  by_cases h1 : stripIsEmpty fd = true
  · rw [if_pos h1] at h; exact absurd h (by simp)
  · have h1' : stripIsEmpty fd = false := by revert h1; cases stripIsEmpty fd <;> simp
    rw [if_neg h1] at h
    cases hep : extract_paths (firstLineL fd) with
    | none => rw [hep] at h; exact absurd h (by simp)
    | some g =>
      obtain ⟨g1, g2⟩ := g
      rw [hep] at h
      dsimp only [] at h
      by_cases h2 : should_exclude_file (String.mk g2) pats = true
      · rw [if_pos h2] at h; exact absurd h (by simp)
      · have h2' : should_exclude_file (String.mk g2) pats = false := by
          revert h2; cases should_exclude_file (String.mk g2) pats <;> simp
        rw [if_neg h2] at h
        exact ⟨g1, g2, rfl, h1', h2', (Option.some.inj h).symm⟩

/-- C5: a file path matched by any of the fixed exclusion patterns never
appears among a `PRDiff`'s changes, whatever raw diff text is parsed. -/
theorem C5_excluded_never_appears (D repo : String) (n : Nat) (desc : String)
    (fa : List String) (c : PRChange)
    (hc : c ∈ (parse_pr_diff D repo n desc fa get_excluded_file_patterns).changes) :
    should_exclude_file c.file_path get_excluded_file_patterns = false := by
  obtain ⟨fd, _, hfd⟩ := List.mem_filterMap.mp hc
  obtain ⟨g1, g2, _, _, hexc, hcform⟩ :=
    parse_section_eq_some repo n get_excluded_file_patterns fd c hfd
  rw [hcform]
  exact hexc

/-- C5 witness: parsing the fixture diff keeps `src/app.py` (whose section
survives next to an excluded `yarn.lock` section) and that path matches no
exclusion pattern. -/
theorem C5_excluded_never_appears_witness :
    fixtureAppChange
      ∈ (parse_pr_diff fixtureDiff "o/svc" 7 "" [] get_excluded_file_patterns).changes ∧
    should_exclude_file "src/app.py" get_excluded_file_patterns = false := by
  have hm : fixtureAppChange
      ∈ (parse_pr_diff fixtureDiff "o/svc" 7 "" [] get_excluded_file_patterns).changes := by
    decide
  exact ⟨hm, C5_excluded_never_appears fixtureDiff "o/svc" 7 "" [] _ hm⟩

/-- C1 counterexample: on a PR that renames a file named `foo/dev/null`, the
parser emits a change whose `old_path` is set while its `change_type` is
`"Deleted"` (the header line contains the substring matched by the
deleted-file test), so `old_path` being set is not equivalent to
`change_type = Renamed` for PR changes. -/
theorem C1_old_path_iff_renamed_counterexample :
    ((parse_pr_diff "diff --git a/foo/dev/null b/bar\nindex 1..2\n" "own/svc" 5 "" []
        get_excluded_file_patterns).changes.map
      (fun c => (c.change_type, c.old_path))
      = [("Deleted", some "foo/dev/null")]) ∧
    ((parse_pr_diff "diff --git a/foo/dev/null b/bar\nindex 1..2\n" "own/svc" 5 "" []
        get_excluded_file_patterns).changes.all
      (fun c => (c.old_path != none) == (c.change_type == "Renamed")) = false) :=
  ⟨by decide, by decide⟩

/-- C1 amended: for single-repository `GitChange` records the equivalence
holds (given the git facts that a rename item carries its source path and
the three item kind flags are mutually exclusive); for cross-repository
`PRChange` records, `old_path` is set exactly when the extracted paths
differ and the extracted before path is non-empty (the source's `old_path`
truthiness), which coincides with `change_type = "Renamed"` whenever the
section's header line does not contain `"/dev/null b/"`. -/
theorem C1_old_path_iff_renamed_amended :
    (∀ (pf : Option String) (item : DiffItem) (c : GitChange),
      item_to_change pf item = some c →
      (item.renamed_file = true →
        pyTruthy item.a_path = true ∧ item.new_file = false ∧
          item.deleted_file = false) →
      (c.old_path ≠ none ↔ c.change_type = ChangeType.renamed)) ∧
    (∀ (repo : String) (n : Nat) (pats : List PyRegex) (fd : List Char)
        (c : PRChange),
      parse_section repo n pats fd = some c →
      hasSub "/dev/null b/".data (firstLineL fd) = false →
      (c.old_path ≠ none ↔ c.change_type = "Renamed")) := by
  constructor
  · intro pf item c h hwf
    unfold item_to_change at h
    cases hx : pyTruthy (pyOr item.a_path item.b_path) with
    | false => rw [hx] at h; exact absurd h (by simp)
    | true =>
      rw [hx] at h
      simp only [Bool.not_true, Bool.false_eq_true, if_false] at h
      cases hpf : (pyTruthy pf &&
          !startsWithL (pf.getD "").data ((pyOr item.a_path item.b_path).getD "").data) with
      | true => rw [hpf] at h; exact absurd h (by simp)
      | false =>
        rw [hpf] at h
        simp only [Bool.false_eq_true, if_false, Option.some.injEq] at h
        subst h
        cases hr : item.renamed_file with
        | false =>
          cases hn : item.new_file <;> cases hd : item.deleted_file <;>
            simp [hr, hn, hd]
        | true =>
          obtain ⟨hta, hnf, hdf⟩ := hwf hr
          cases ha : item.a_path with
          | none => rw [ha] at hta; exact absurd hta (by simp [pyTruthy])
          | some s =>
            rw [ha] at hta
            simp [hr, hnf, hdf, ha, hta]
  · intro repo n pats fd c h hdel
    obtain ⟨g1, g2, hep, _, _, hcform⟩ := parse_section_eq_some repo n pats fd c h
    have hstart : startsWithL " a/".data (firstLineL fd) = true :=
      extract_paths_startsWith _ _ hep
    have hdev : startsWithL " /dev/null".data fd = false :=
      devnull_start_false fd hstart
    rw [hcform]
    simp only [hdev, hdel, Bool.false_eq_true, if_false]
    by_cases hg : g1 ≠ g2 ∧ g1 ≠ []
    · exact iff_of_true (by simp [hg]) (by simp [hg])
    · exact iff_of_false (by simp [hg]) (by simp [hg])

/-- C1 amended witness: a pure rename yields, on both paths, a change with
`old_path` set and the renamed change type. -/
theorem C1_old_path_iff_renamed_amended_witness :
    item_to_change none fixtureRenameItem = some fixtureRenameGitChange ∧
    (fixtureRenameGitChange.old_path ≠ none ↔
      fixtureRenameGitChange.change_type = ChangeType.renamed) ∧
    parse_section "o/s" 1 get_excluded_file_patterns fixtureRenameSection
      = some fixtureRenamePRChange ∧
    (fixtureRenamePRChange.old_path ≠ none ↔
      fixtureRenamePRChange.change_type = "Renamed") := by
  refine ⟨by decide, ?_, by decide, ?_⟩
  · exact C1_old_path_iff_renamed_amended.1 none fixtureRenameItem
      fixtureRenameGitChange (by decide) (by decide)
  · exact C1_old_path_iff_renamed_amended.2 "o/s" 1 get_excluded_file_patterns
      fixtureRenameSection fixtureRenamePRChange (by decide) (by decide)

/-- C4 counterexample: a per-file section whose extracted "before" path is
the null device `/dev/null` is classified `"Deleted"`, not `"Added"` as the
claim prescribes for a null "before" side (and a null "after" path would be
classified `"Renamed"`). -/
theorem C4_change_type_counterexample :
    ((parse_pr_diff "diff --git a//dev/null b/foo\n+x\n" "o/s" 1 "" []
        get_excluded_file_patterns).changes.map
      (fun c => (c.change_type, c.old_path, c.file_path)))
      = [("Deleted", some "/dev/null", "foo")] := by decide

/-- C4 amended: every emitted change's `change_type` follows the parser's
decision tree as written: `"Added"` if the section text starts with
`" /dev/null"` (impossible once paths were extracted, so `"Added"` is never
emitted), `"Deleted"` if the header line contains the substring
`"/dev/null b/"`, else `"Renamed"` (with the extracted before path retained
as `old_path`) if the extracted before/after paths differ and the before
path is non-empty (the source's truthiness test on its `old_path` local),
else `"Modified"`. -/
theorem C4_change_type_amended (D repo : String) (n : Nat) (desc : String)
    (fa : List String) (pats : List PyRegex) (c : PRChange)
    (hc : c ∈ (parse_pr_diff D repo n desc fa pats).changes) :
    ∃ fd ∈ (split_sections D.data).drop 1,
      parse_section repo n pats fd = some c ∧
      ∃ g1 g2, extract_paths (firstLineL fd) = some (g1, g2) ∧
        c.file_path = String.mk g2 ∧
        c.old_path = (if g1 ≠ g2 ∧ g1 ≠ [] then some (String.mk g1) else none) ∧
        c.change_type =
          (if startsWithL " /dev/null".data fd then "Added"
           else if hasSub "/dev/null b/".data (firstLineL fd) then "Deleted"
           else if g1 ≠ g2 ∧ g1 ≠ [] then "Renamed" else "Modified") ∧
        c.change_type ≠ "Added" := by
  obtain ⟨fd, hfd_mem, hfd⟩ := List.mem_filterMap.mp hc
  refine ⟨fd, hfd_mem, hfd, ?_⟩
  obtain ⟨g1, g2, hep, _, _, hcform⟩ := parse_section_eq_some repo n pats fd c hfd
  have hdev : startsWithL " /dev/null".data fd = false :=
    devnull_start_false fd (extract_paths_startsWith _ _ hep)
  refine ⟨g1, g2, hep, by rw [hcform], by rw [hcform], by rw [hcform], ?_⟩
  rw [hcform]
  show (if startsWithL " /dev/null".data fd then "Added"
        else if hasSub "/dev/null b/".data (firstLineL fd) then "Deleted"
        else if g1 ≠ g2 ∧ g1 ≠ [] then "Renamed" else "Modified") ≠ "Added"
  simp only [hdev, Bool.false_eq_true, if_false]
  by_cases hd : hasSub "/dev/null b/".data (firstLineL fd) = true
  · rw [if_pos hd]; decide
  · rw [if_neg hd]
    by_cases hg : g1 ≠ g2 ∧ g1 ≠ []
    · rw [if_pos hg]; decide
    · rw [if_neg hg]; decide

/-- C4 amended witness: the rename fixture hits the `"Renamed"` arm of the
decision tree with the before path retained. -/
theorem C4_change_type_amended_witness :
    fixtureRenamePRChange ∈ (parse_pr_diff renameDiff "o/s" 1 "" []
      get_excluded_file_patterns).changes ∧
    ∃ fd ∈ (split_sections renameDiff.data).drop 1,
      parse_section "o/s" 1 get_excluded_file_patterns fd
        = some fixtureRenamePRChange ∧
      ∃ g1 g2, extract_paths (firstLineL fd) = some (g1, g2) ∧
        fixtureRenamePRChange.file_path = String.mk g2 ∧
        fixtureRenamePRChange.old_path
          = (if g1 ≠ g2 ∧ g1 ≠ [] then some (String.mk g1) else none) ∧
        fixtureRenamePRChange.change_type =
          (if startsWithL " /dev/null".data fd then "Added"
           else if hasSub "/dev/null b/".data (firstLineL fd) then "Deleted"
           else if g1 ≠ g2 ∧ g1 ≠ [] then "Renamed" else "Modified") ∧
        fixtureRenamePRChange.change_type ≠ "Added" := by
  have hm : fixtureRenamePRChange ∈ (parse_pr_diff renameDiff "o/s" 1 "" []
      get_excluded_file_patterns).changes := by decide
  exact ⟨hm, C4_change_type_amended renameDiff "o/s" 1 "" []
    get_excluded_file_patterns fixtureRenamePRChange hm⟩

/-- On a non-final line, the regex count and the simple prefix count agree
unless the line starts with exactly two markers not followed by a third. -/
theorem marked_line_agree (mark : Char) (l : List Char)
    (hdbl : startsWithL [mark, mark] l = true →
      startsWithL [mark, mark, mark] l = true) :
    markedInner mark l
      = (startsWithL [mark] l && !startsWithL [mark, mark, mark] l) := by
  cases l with
  | nil => rfl
  | cons c cs =>
    cases cs with
    | nil => simp [markedInner, startsWithL, subAt, Bool.beq_comm]
    | cons d ds =>
      by_cases hc : (mark == c) = true
      · have hc' : (c == mark) = true := by rwa [Bool.beq_comm] at hc
        by_cases hd : (mark == d) = true
        · have hd' : (d == mark) = true := by rwa [Bool.beq_comm] at hd
          have h3 := hdbl (by simp [startsWithL, subAt, hc, hd, Bool.beq_comm])
          simp only [startsWithL, subAt, Bool.and_eq_true] at h3
          simp [markedInner, startsWithL, subAt, hc, hc', hd, hd', h3.2.2]
        · have hd2 : (mark == d) = false := by simpa using hd
          have hd' : (d == mark) = false := by rwa [Bool.beq_comm] at hd2
          simp [markedInner, startsWithL, subAt, hc, hc', hd2, hd']
      · have hc2 : (mark == c) = false := by simpa using hc
        have hc' : (c == mark) = false := by rwa [Bool.beq_comm] at hc2
        simp [markedInner, startsWithL, subAt, hc2, hc']

/-- On the final line the two counts additionally disagree on the bare
marker line, excluded by hypothesis. -/
theorem marked_last_agree (mark : Char) (l : List Char)
    (hdbl : startsWithL [mark, mark] l = true →
      startsWithL [mark, mark, mark] l = true)
    (hlast : l ≠ [mark]) :
    markedLast mark l
      = (startsWithL [mark] l && !startsWithL [mark, mark, mark] l) := by
  cases l with
  | nil => rfl
  | cons c cs =>
    cases cs with
    | nil =>
      have hc : (mark == c) = false := by
        refine Bool.eq_false_iff.mpr (fun hx => ?_)
        exact hlast (by rw [(beq_iff_eq ..).mp hx])
      simp [markedLast, startsWithL, subAt, hc]
    | cons d ds =>
      have h := marked_line_agree mark (c :: d :: ds) hdbl
      rw [← h]
      rfl

/-- The PR parser's regex count equals the revision reader's count of
marker-initial lines (triple-marker lines excluded) whenever no line starts
with a doubled marker lacking a third and the final line is not a bare
marker. -/
theorem countMarked_eq_filter (mark : Char) (ls : List (List Char))
    (hdbl : ∀ l ∈ ls, startsWithL [mark, mark] l = true →
      startsWithL [mark, mark, mark] l = true)
    (hlast : ls.getLastD [] ≠ [mark]) :
    countMarked mark ls
      = (ls.filter (fun l => startsWithL [mark] l &&
          !startsWithL [mark, mark, mark] l)).length := by
  induction ls with
  | nil => rfl
  | cons l ls ih =>
    cases ls with
    | nil =>
      have h := marked_last_agree mark l (hdbl l (List.mem_cons_self l []))
        (by simpa using hlast)
      show (if markedLast mark l then 1 else 0) = _
      rw [h, List.filter_cons]
      by_cases hp : (startsWithL [mark] l && !startsWithL [mark, mark, mark] l) = true
      · rw [if_pos hp, if_pos hp]; rfl
      · rw [if_neg hp, if_neg hp]; rfl
    | cons l2 ls2 =>
      have h1 := marked_line_agree mark l (hdbl l (List.mem_cons_self l _))
      have hl2 : (l2 :: ls2).getLastD [] ≠ [mark] := by
        rw [List.getLastD_cons] at hlast ⊢
        rwa [List.getLastD_cons] at hlast
      have ihh := ih (fun x hx => hdbl x (List.mem_cons_of_mem _ hx)) hl2
      show (if markedInner mark l then 1 else 0) + countMarked mark (l2 :: ls2) = _
      rw [h1, ihh]
      conv_rhs => rw [List.filter_cons]
      by_cases hp : (startsWithL [mark] l && !startsWithL [mark, mark, mark] l) = true
      · rw [if_pos hp, if_pos hp, List.length_cons]
        omega
      · rw [if_neg hp, if_neg hp]
        omega

/-- C7 counterexample: on a section containing the added line `++x` (source
content `+x`), the claim's count — lines beginning with `+` excluding the
`+++` header — is 1, but the PR parser records `lines_added = 0` because its
regex `^\+[^+]` also rejects doubled markers. -/
theorem C7_line_counts_counterexample :
    ((parse_pr_diff "diff --git a/f b/f\n--- a/f\n+++ b/f\n++x\n" "o/s" 1 "" []
        get_excluded_file_patterns).changes.map PRChange.lines_added = [0]) ∧
    simpleCount '+' " a/f b/f\n--- a/f\n+++ b/f\n++x\n".data = 1 :=
  ⟨by decide, by decide⟩

/-- C7 amended: the revision diff reader counts exactly the lines beginning
with the marker and not with the tripled marker; the PR diff parser counts
the lines matched by `^\+[^+]` (respectively `^-[^-]`), where the character
class may consume the newline; the two computations agree on any section
with no doubled-marker line lacking a third marker and whose final line is
not a bare marker, and differ otherwise. -/
theorem C7_line_counts_amended :
    (∀ (pf : Option String) (item : DiffItem) (c : GitChange) (t : String),
      item_to_change pf item = some c → item.diff = some t → (t == "") = false →
      c.lines_added = simpleCount '+' t.data ∧
      c.lines_removed = simpleCount '-' t.data) ∧
    (∀ (repo : String) (n : Nat) (pats : List PyRegex) (fd : List Char)
        (c : PRChange),
      parse_section repo n pats fd = some c →
      c.lines_added = countMarked '+' (splitOnChar '\n' fd) ∧
      c.lines_removed = countMarked '-' (splitOnChar '\n' fd)) ∧
    (∀ (mark : Char) (ls : List (List Char)),
      (∀ l ∈ ls, startsWithL [mark, mark] l = true →
        startsWithL [mark, mark, mark] l = true) →
      ls.getLastD [] ≠ [mark] →
      countMarked mark ls
        = (ls.filter (fun l => startsWithL [mark] l &&
            !startsWithL [mark, mark, mark] l)).length) := by
  refine ⟨?_, ?_, countMarked_eq_filter⟩
  · intro pf item c t h hdiff hne
    unfold item_to_change at h
    cases hx : pyTruthy (pyOr item.a_path item.b_path) with
    | false => rw [hx] at h; exact absurd h (by simp)
    | true =>
      rw [hx] at h
      simp only [Bool.not_true, Bool.false_eq_true, if_false] at h
      cases hpf : (pyTruthy pf &&
          !startsWithL (pf.getD "").data
            ((pyOr item.a_path item.b_path).getD "").data) with
      | true => rw [hpf] at h; exact absurd h (by simp)
      | false =>
        rw [hpf] at h
        simp only [Bool.false_eq_true, if_false, Option.some.injEq] at h
        subst h
        have hred : item_line_counts (some t)
            = (simpleCount '+' t.data, simpleCount '-' t.data) := by
          show (if (t == "") = true then ((0 : Nat), (0 : Nat))
                else (simpleCount '+' t.data, simpleCount '-' t.data)) = _
          rw [hne]
          rfl
        show ((item_line_counts item.diff).1 = _ ∧ (item_line_counts item.diff).2 = _)
        rw [hdiff, hred]
        exact ⟨rfl, rfl⟩
  · intro repo n pats fd c h
    obtain ⟨g1, g2, _, _, _, hcform⟩ := parse_section_eq_some repo n pats fd c h
    rw [hcform]
    exact ⟨rfl, rfl⟩

/-- C7 amended witness: on the fixture's ordinary hunk both counts evaluate
to one added and one removed line, and the agreement conditions hold. -/
theorem C7_line_counts_amended_witness :
    parse_section "o/s" 1 get_excluded_file_patterns fixtureRenameSection
      = some fixtureRenamePRChange ∧
    fixtureRenamePRChange.lines_added
      = countMarked '+' (splitOnChar '\n' fixtureRenameSection) ∧
    countMarked '+' (splitOnChar '\n' fixtureRenameSection)
      = ((splitOnChar '\n' fixtureRenameSection).filter
          (fun l => startsWithL ['+'] l &&
            !startsWithL ['+', '+', '+'] l)).length := by
  refine ⟨by decide, ?_, ?_⟩
  · exact (C7_line_counts_amended.2.1 "o/s" 1 get_excluded_file_patterns
      fixtureRenameSection fixtureRenamePRChange (by decide)).1
  · exact C7_line_counts_amended.2.2 '+' (splitOnChar '\n' fixtureRenameSection)
      (by decide) (by decide)

/-- The classification fold appends each iteration pair's contribution to
the accumulator of its first matching category. -/
theorem foldl_crossStep (ps : List (String × PRChange))
    (a e d g : List String) :
    ps.foldl crossStep (a, e, d, g)
      = (a ++ ps.filterMap specEntryOf, e ++ ps.filterMap endpointEntryOf,
         d ++ ps.filterMap dbEntryOf, g ++ ps.filterMap cfgEntryOf) := by
  induction ps generalizing a e d g with
  | nil => simp
  | cons p ps ih =>
    obtain ⟨sn, c⟩ := p
    rw [List.foldl_cons]
    by_cases h1 : isApiSpecPath (lowerL c.file_path.data) = true
    · have hstep : crossStep (a, e, d, g) (sn, c)
          = (a ++ [apiSpecEntry sn c], e, d, g) := by
        simp only [crossStep]; rw [if_pos h1]
      rw [hstep, ih]
      simp [specEntryOf, endpointEntryOf, dbEntryOf, cfgEntryOf, h1,
        List.filterMap_cons, List.append_assoc]
    · have h1' : isApiSpecPath (lowerL c.file_path.data) = false := by simpa using h1
      by_cases h2 : isApiEndpointPath (lowerL c.file_path.data) = true
      · have hstep : crossStep (a, e, d, g) (sn, c)
            = (a, e ++ [plainEntry sn c], d, g) := by
          simp only [crossStep]; rw [if_neg h1, if_pos h2]
        rw [hstep, ih]
        simp [specEntryOf, endpointEntryOf, dbEntryOf, cfgEntryOf, h1', h2,
          List.filterMap_cons, List.append_assoc]
      · have h2' : isApiEndpointPath (lowerL c.file_path.data) = false := by
          simpa using h2
        by_cases h3 : isDatabasePath (lowerL c.file_path.data) = true
        · have hstep : crossStep (a, e, d, g) (sn, c)
              = (a, e, d ++ [plainEntry sn c], g) := by
            simp only [crossStep]; rw [if_neg h1, if_neg h2, if_pos h3]
          rw [hstep, ih]
          simp [specEntryOf, endpointEntryOf, dbEntryOf, cfgEntryOf, h1', h2', h3,
            List.filterMap_cons, List.append_assoc]
        · have h3' : isDatabasePath (lowerL c.file_path.data) = false := by
            simpa using h3
          by_cases h4 : isConfigPath (lowerL c.file_path.data) = true
          · have hstep : crossStep (a, e, d, g) (sn, c)
                = (a, e, d, g ++ [plainEntry sn c]) := by
              simp only [crossStep]; rw [if_neg h1, if_neg h2, if_neg h3, if_pos h4]
            rw [hstep, ih]
            simp [specEntryOf, endpointEntryOf, dbEntryOf, cfgEntryOf, h1', h2',
              h3', h4, List.filterMap_cons, List.append_assoc]
          · have h4' : isConfigPath (lowerL c.file_path.data) = false := by
              simpa using h4
            have hstep : crossStep (a, e, d, g) (sn, c) = (a, e, d, g) := by
              simp only [crossStep]; rw [if_neg h1, if_neg h2, if_neg h3, if_neg h4]
            rw [hstep, ih]
            simp [specEntryOf, endpointEntryOf, dbEntryOf, cfgEntryOf, h1', h2',
              h3', h4', List.filterMap_cons]

/-- `detect_cross_service_patterns` as four conditionally-present blocks. -/
theorem detect_cross_eq (pr_diffs : List PRDiff) :
    detect_cross_service_patterns pr_diffs
      = (if !(apiSpecList pr_diffs).isEmpty then
          [("api_specifications", apiSpecList pr_diffs)] else []) ++
        (if !(apiEndpointList pr_diffs).isEmpty then
          [("api_endpoints", apiEndpointList pr_diffs)] else []) ++
        (if !(databaseList pr_diffs).isEmpty then
          [("database_changes", databaseList pr_diffs)] else []) ++
        (if !(configList pr_diffs).isEmpty then
          [("config_changes", configList pr_diffs)] else []) := by
  unfold detect_cross_service_patterns
  rw [foldl_crossStep]
  rfl

/-- `List.lookup` distributes over append. -/
theorem lookup_append {β : Type} (l1 l2 : List (String × β)) (k : String) :
    (l1 ++ l2).lookup k
      = ((l1.lookup k).orElse (fun _ => l2.lookup k)) := by
  induction l1 with
  | nil => simp [List.lookup]
  | cons q l1 ih =>
    obtain ⟨qk, qv⟩ := q
    by_cases hq : (k == qk) = true
    · simp [List.lookup, hq]
    · have hq' : (k == qk) = false := by simpa using hq
      simp [List.lookup, hq', ih]

/-- Looking a different key up in a conditional singleton block gives
nothing. -/
theorem lookup_block_ne {β : Type} (name k : String) (v : β) (b : Bool)
    (hne : (k == name) = false) :
    (if b then [(name, v)] else []).lookup k = none := by
  cases b <;> simp [List.lookup, hne]

/-- Looking the block's own key up returns its value exactly when the block
is present. -/
theorem lookup_block_self {β : Type} (name : String) (v : β) (b : Bool) :
    (if b then [(name, v)] else []).lookup name
      = if b then some v else none := by
  cases b <;> simp [List.lookup]

/-- C8: the four cross-service category keys map to their first-match
classification lists, in which every change contributes to at most the
first category whose keyword test its lowered path passes
(`api_specifications` before `api_endpoints` before `database_changes`
before `config_changes`); a category with no matches is absent from the
map; the line-count suffix exists only in the API-specification entries
(`apiSpecEntry` versus `plainEntry`); and the scenario file
`api/openapi.json` is recorded only under `api_specifications`. -/
theorem C8_category_detection (pr_diffs : List PRDiff) :
    ((detect_cross_service_patterns pr_diffs).lookup "api_specifications"
      = if (apiSpecList pr_diffs).isEmpty then none
        else some (apiSpecList pr_diffs)) ∧
    ((detect_cross_service_patterns pr_diffs).lookup "api_endpoints"
      = if (apiEndpointList pr_diffs).isEmpty then none
        else some (apiEndpointList pr_diffs)) ∧
    ((detect_cross_service_patterns pr_diffs).lookup "database_changes"
      = if (databaseList pr_diffs).isEmpty then none
        else some (databaseList pr_diffs)) ∧
    ((detect_cross_service_patterns pr_diffs).lookup "config_changes"
      = if (configList pr_diffs).isEmpty then none
        else some (configList pr_diffs)) ∧
    (∀ p : String × PRChange, isApiSpecPath (lowerL p.2.file_path.data) = true →
      specEntryOf p = some (apiSpecEntry p.1 p.2) ∧
      endpointEntryOf p = none ∧ dbEntryOf p = none ∧ cfgEntryOf p = none) ∧
    (∀ s ∈ apiEndpointList pr_diffs ++ databaseList pr_diffs ++ configList pr_diffs,
      ∃ p ∈ changePairs pr_diffs, s = plainEntry p.1 p.2) ∧
    detect_cross_service_patterns [fixtureOpenapiPR]
      = [("api_specifications", ["beta: api/openapi.json (+1/-0)"])] := by
  have hq := detect_cross_eq pr_diffs
  refine ⟨?_, ?_, ?_, ?_, ?_, ?_, by decide⟩
  · rw [hq, lookup_append, lookup_append, lookup_append, lookup_block_self,
      lookup_block_ne _ _ _ _ (by decide), lookup_block_ne _ _ _ _ (by decide),
      lookup_block_ne _ _ _ _ (by decide)]
    cases hA : (apiSpecList pr_diffs).isEmpty <;> simp [hA]
  · rw [hq, lookup_append, lookup_append, lookup_append,
      lookup_block_ne _ _ _ _ (by decide), lookup_block_self,
      lookup_block_ne _ _ _ _ (by decide), lookup_block_ne _ _ _ _ (by decide)]
    cases hA : (apiEndpointList pr_diffs).isEmpty <;> simp [hA]
  · rw [hq, lookup_append, lookup_append, lookup_append,
      lookup_block_ne _ _ _ _ (by decide), lookup_block_ne _ _ _ _ (by decide),
      lookup_block_self, lookup_block_ne _ _ _ _ (by decide)]
    cases hA : (databaseList pr_diffs).isEmpty <;> simp [hA]
  · rw [hq, lookup_append, lookup_append, lookup_append,
      lookup_block_ne _ _ _ _ (by decide), lookup_block_ne _ _ _ _ (by decide),
      lookup_block_ne _ _ _ _ (by decide), lookup_block_self]
    cases hA : (configList pr_diffs).isEmpty <;> simp [hA]
  · intro p hp
    exact ⟨by simp [specEntryOf, hp], by simp [endpointEntryOf, hp],
      by simp [dbEntryOf, hp], by simp [cfgEntryOf, hp]⟩
  · intro s hs
    rcases List.mem_append.mp hs with hs1 | hs2
    · rcases List.mem_append.mp hs1 with hs11 | hs12
      · obtain ⟨p, hp, hpe⟩ := List.mem_filterMap.mp hs11
        refine ⟨p, hp, ?_⟩
        unfold endpointEntryOf at hpe
        split at hpe
        · exact (Option.some.inj hpe).symm
        · exact absurd hpe (by simp)
      · obtain ⟨p, hp, hpe⟩ := List.mem_filterMap.mp hs12
        refine ⟨p, hp, ?_⟩
        unfold dbEntryOf at hpe
        split at hpe
        · exact (Option.some.inj hpe).symm
        · exact absurd hpe (by simp)
    · obtain ⟨p, hp, hpe⟩ := List.mem_filterMap.mp hs2
      refine ⟨p, hp, ?_⟩
      unfold cfgEntryOf at hpe
      split at hpe
      · exact (Option.some.inj hpe).symm
      · exact absurd hpe (by simp)

/-- C8 witness: a path matching both the API-specification and the
API-endpoint keyword sets contributes only the specification entry. -/
theorem C8_category_detection_witness :
    isApiSpecPath (lowerL "api/openapi.json".data) = true ∧
    isApiEndpointPath (lowerL "api/openapi.json".data) = true ∧
    endpointEntryOf ("beta", fixtureOpenapiChange) = none := by
  refine ⟨by decide, by decide, ?_⟩
  exact ((C8_category_detection []).2.2.2.2.1 ("beta", fixtureOpenapiChange)
    (by decide)).2.1

/-- Inserting a fresh key into the dict model appends it. -/
theorem pyInsert_fresh {β : Type} (m : List (String × β)) (k : String) (v : β)
    (h : m.any (fun q => q.1 == k) = false) : pyInsert m k v = m ++ [(k, v)] := by
  unfold pyInsert
  rw [h]
  rfl

/-- A fold of guarded dict insertions over distinct keys builds the
corresponding filtered association list. -/
theorem foldl_pyInsert {α β : Type} (guard : α → Bool) (key : α → String)
    (val : α → β) (xs : List α) (init : List (String × β))
    (hdisj : ∀ q ∈ init, ∀ x ∈ xs, guard x = true → ¬(q.1 = key x))
    (hnodup : (xs.map key).Nodup) :
    xs.foldl (fun acc x => if guard x then pyInsert acc (key x) (val x) else acc)
        init
      = init ++ xs.filterMap (fun x =>
          if guard x then some (key x, val x) else none) := by
  induction xs generalizing init with
  | nil => simp
  | cons x xs ih =>
    rw [List.foldl_cons]
    by_cases hg : guard x = true
    · rw [if_pos hg]
      have hfresh : init.any (fun q => q.1 == key x) = false := by
        cases hcase : init.any (fun q => q.1 == key x) with
        | false => rfl
        | true =>
          obtain ⟨q, hq, hqk⟩ := List.any_eq_true.mp hcase
          exact absurd ((beq_iff_eq ..).mp hqk)
            (hdisj q hq x (List.mem_cons_self x xs) hg)
      rw [pyInsert_fresh _ _ _ hfresh]
      rw [ih (init ++ [(key x, val x)]) ?_ (List.nodup_cons.mp hnodup).2]
      · simp [hg, List.filterMap_cons, List.append_assoc]
      · intro q hq y hy hgy
        rcases List.mem_append.mp hq with hq1 | hq2
        · exact hdisj q hq1 y (List.mem_cons_of_mem _ hy) hgy
        · have hqe : q = (key x, val x) := by simpa using hq2
          subst hqe
          intro hkk
          have hkk' : key x = key y := hkk
          exact (List.nodup_cons.mp hnodup).1
            (by rw [hkk']; exact List.mem_map_of_mem key hy)
    · have hg' : guard x = false := by simpa using hg
      rw [if_neg hg]
      rw [ih init (fun q hq y hy hgy =>
        hdisj q hq y (List.mem_cons_of_mem _ hy) hgy)
        (List.nodup_cons.mp hnodup).2]
      simp [List.filterMap_cons, hg']

/-- Looking up a key none of the entries carries yields nothing. -/
theorem lookup_none_of_keys {β : Type} (l : List (String × β)) (k : String)
    (h : ∀ q ∈ l, ¬(q.1 = k)) : l.lookup k = none := by
  induction l with
  | nil => rfl
  | cons q l ih =>
    obtain ⟨qk, qv⟩ := q
    have hk : (k == qk) = false :=
      beq_eq_false_iff_ne.mpr (fun he => h (qk, qv) (List.mem_cons_self _ _) he.symm)
    simp [List.lookup, hk, ih (fun q hq => h q (List.mem_cons_of_mem _ hq))]

/-- Looking up an element's key in the guarded filtered association list
over distinct keys returns its guarded value. -/
theorem lookup_filterMap_entry {α β : Type} (guard : α → Bool)
    (key : α → String) (val : α → β) (xs : List α)
    (hnodup : (xs.map key).Nodup) (x : α) (hx : x ∈ xs) :
    (xs.filterMap (fun y => if guard y then some (key y, val y) else none)).lookup
        (key x)
      = if guard x then some (val x) else none := by
  induction xs with
  | nil => cases hx
  | cons y ys ih =>
    rcases List.mem_cons.mp hx with rfl | hx'
    · by_cases hg : guard x = true
      · simp [List.filterMap_cons, hg, List.lookup]
      · have hg' : guard x = false := by simpa using hg
        simp only [List.filterMap_cons, hg', Bool.false_eq_true, if_false]
        apply lookup_none_of_keys
        intro q hq
        obtain ⟨z, hz, hzf⟩ := List.mem_filterMap.mp hq
        by_cases hgz : guard z = true
        · rw [if_pos hgz] at hzf
          have hqe : q = (key z, val z) := (Option.some.inj hzf).symm
          subst hqe
          intro hqk
          exact (List.nodup_cons.mp hnodup).1
            (hqk ▸ List.mem_map_of_mem key hz)
        · rw [if_neg hgz] at hzf
          exact absurd hzf (by simp)
    · have hk : ¬(key y = key x) := fun he =>
        (List.nodup_cons.mp hnodup).1 (he ▸ List.mem_map_of_mem key hx')
      have ihh := ih (List.nodup_cons.mp hnodup).2 hx'
      by_cases hg : guard y = true
      · have hbk : (key x == key y) = false :=
          beq_eq_false_iff_ne.mpr (fun he => hk he.symm)
        simp [List.filterMap_cons, hg, List.lookup, hbk, ihh]
      · have hg' : guard y = false := by simpa using hg
        simp [List.filterMap_cons, hg', ihh]

/-- Under distinct service names, the inner interaction fold produces the
filtered association list. -/
theorem interactions_for_eq (pr_diffs : List PRDiff) (pr : PRDiff)
    (hnodup : (pr_diffs.map PRDiff.service_name).Nodup) :
    interactions_for pr_diffs pr = interactionsList pr_diffs pr := by
  have hext : pr_diffs.foldl (fun si other =>
      if other.service_name == pr.service_name then si
      else
        if !(callsFor pr other).isEmpty then
          pyInsert si other.service_name (callsFor pr other)
        else si) []
      = pr_diffs.foldl (fun si other =>
          if (!(other.service_name == pr.service_name) &&
              !(callsFor pr other).isEmpty) then
            pyInsert si other.service_name (callsFor pr other)
          else si) [] := by
    apply List.foldl_ext
    intro si other _
    by_cases h1 : (other.service_name == pr.service_name) = true
    · simp [h1]
    · have h1' : (other.service_name == pr.service_name) = false := by simpa using h1
      by_cases h2 : (callsFor pr other).isEmpty = true
      · simp [h1', h2]
      · have h2' : (callsFor pr other).isEmpty = false := by simpa using h2
        simp [h1', h2']
  show pr_diffs.foldl _ [] = _
  rw [hext]
  rw [foldl_pyInsert (fun other => !(other.service_name == pr.service_name) &&
      !(callsFor pr other).isEmpty) PRDiff.service_name (callsFor pr) pr_diffs []
      (by intro q hq; cases hq) hnodup]
  rfl

/-- Under distinct service names, the outer fold produces the filtered
association list. -/
theorem detect_service_interactions_eq (pr_diffs : List PRDiff)
    (hnodup : (pr_diffs.map PRDiff.service_name).Nodup) :
    detect_service_interactions pr_diffs = serviceInteractionsList pr_diffs := by
  show pr_diffs.foldl _ [] = _
  rw [foldl_pyInsert (fun pr => !(interactions_for pr_diffs pr).isEmpty)
      PRDiff.service_name (interactions_for pr_diffs) pr_diffs []
      (by intro q hq; cases hq) hnodup]
  rfl

/-- The evidence list for a pair is empty exactly when no changed file path
and not the raw diff mention the other service. -/
theorem callsFor_eq_nil_iff (A B : PRDiff) :
    callsFor A B = [] ↔
      ((∀ c ∈ A.changes, hasSub (lowerL B.service_name.data)
          (lowerL c.file_path.data) = false) ∧
        hasSub (lowerL B.service_name.data) (lowerL A.raw_diff.data) = false) := by
  unfold callsFor
  rw [List.append_eq_nil, List.filterMap_eq_nil_iff]
  constructor
  · rintro ⟨h1, h2⟩
    refine ⟨fun c hc => ?_, ?_⟩
    · have hg := h1 c hc
      by_cases hs : hasSub (lowerL B.service_name.data)
          (lowerL c.file_path.data) = true
      · rw [if_pos hs] at hg; exact absurd hg (by simp)
      · simpa using hs
    · by_cases hr : hasSub (lowerL B.service_name.data)
          (lowerL A.raw_diff.data) = true
      · rw [if_pos hr] at h2; exact absurd h2 (by simp)
      · simpa using hr
  · rintro ⟨h1, h2⟩
    exact ⟨fun c hc => by simp [h1 c hc], by simp [h2]⟩

/-- The positive reading: evidence exists exactly when some changed file
path contains the other service's name or the raw diff does. -/
theorem callsFor_ne_nil_iff (A B : PRDiff) :
    callsFor A B ≠ [] ↔
      ((∃ c ∈ A.changes, hasSub (lowerL B.service_name.data)
          (lowerL c.file_path.data) = true) ∨
        hasSub (lowerL B.service_name.data) (lowerL A.raw_diff.data) = true) := by
  rw [ne_eq, callsFor_eq_nil_iff]
  constructor
  · intro h
    by_cases hr : hasSub (lowerL B.service_name.data)
        (lowerL A.raw_diff.data) = true
    · exact Or.inr hr
    · left
      by_contra hno
      push_neg at hno
      refine h ⟨fun c hc => ?_, by simpa using hr⟩
      have hnc := hno c hc
      cases hcs : hasSub (lowerL B.service_name.data) (lowerL c.file_path.data) with
      | false => rfl
      | true => exact absurd hcs hnc
  · rintro (⟨c, hc, hs⟩ | hr) ⟨h1, h2⟩
    · rw [h1 c hc] at hs; exact absurd hs (by simp)
    · rw [h2] at hr; exact absurd hr (by simp)

/-- C9: with pairwise-distinct service names, looking service `A` up in the
interaction map and then `B` in its inner map returns exactly the non-empty
evidence list `callsFor A B`; evidence exists exactly when a changed file
path of `A` contains `B`'s name case-insensitively or `B`'s name occurs in
`A`'s raw diff; file-path evidence contributes a `"File reference: …"`
entry and diff-content evidence a `"Code references to …"` entry; and a
service with no outbound references is omitted from the outer map. -/
theorem C9_service_interaction_evidence (pr_diffs : List PRDiff)
    (hnodup : (pr_diffs.map PRDiff.service_name).Nodup)
    (A B : PRDiff) (hA : A ∈ pr_diffs) (hB : B ∈ pr_diffs)
    (hAB : A.service_name ≠ B.service_name) :
    (((detect_service_interactions pr_diffs).lookup A.service_name).bind
        (fun si => si.lookup B.service_name)
      = if (callsFor A B).isEmpty then none else some (callsFor A B)) ∧
    (callsFor A B ≠ [] ↔
      ((∃ c ∈ A.changes, hasSub (lowerL B.service_name.data)
          (lowerL c.file_path.data) = true) ∨
        hasSub (lowerL B.service_name.data) (lowerL A.raw_diff.data) = true)) ∧
    (∀ c ∈ A.changes, hasSub (lowerL B.service_name.data)
        (lowerL c.file_path.data) = true →
      ("File reference: " ++ c.file_path) ∈ callsFor A B) ∧
    (hasSub (lowerL B.service_name.data) (lowerL A.raw_diff.data) = true →
      ("Code references to " ++ B.service_name) ∈ callsFor A B) ∧
    ((detect_service_interactions pr_diffs).lookup A.service_name = none ↔
      ∀ B' ∈ pr_diffs, B'.service_name ≠ A.service_name →
        callsFor A B' = []) := by
  have hdet := detect_service_interactions_eq pr_diffs hnodup
  have houter : (serviceInteractionsList pr_diffs).lookup A.service_name
      = if !(interactions_for pr_diffs A).isEmpty then
          some (interactions_for pr_diffs A)
        else none :=
    lookup_filterMap_entry (fun pr => !(interactions_for pr_diffs pr).isEmpty)
      PRDiff.service_name (interactions_for pr_diffs) pr_diffs hnodup A hA
  have hne : (B.service_name == A.service_name) = false :=
    beq_eq_false_iff_ne.mpr (fun h => hAB h.symm)
  have hinner : (interactionsList pr_diffs A).lookup B.service_name
      = if (!(B.service_name == A.service_name) && !(callsFor A B).isEmpty) then
          some (callsFor A B)
        else none := by
    show (pr_diffs.filterMap (fun other : PRDiff =>
        if (!(other.service_name == A.service_name) &&
            !(callsFor A other).isEmpty) then
          some (other.service_name, callsFor A other)
        else none)).lookup B.service_name = _
    exact lookup_filterMap_entry
      (fun other => !(other.service_name == A.service_name) &&
        !(callsFor A other).isEmpty)
      PRDiff.service_name (callsFor A) pr_diffs hnodup B hB
  have hlist_nil : ∀ B' ∈ pr_diffs, interactionsList pr_diffs A = [] →
      B'.service_name ≠ A.service_name → callsFor A B' = [] := by
    intro B' hB' hnil hne'
    have hent := List.filterMap_eq_nil_iff.mp hnil B' hB'
    unfold interactionEntryOf at hent
    have hne'' : (B'.service_name == A.service_name) = false :=
      beq_eq_false_iff_ne.mpr hne'
    rw [hne''] at hent
    by_cases hce : (callsFor A B').isEmpty = true
    · exact List.isEmpty_iff.mp hce
    · have hce' : (callsFor A B').isEmpty = false := by simpa using hce
      rw [hce'] at hent
      exact absurd hent (by simp)
  refine ⟨?_, callsFor_ne_nil_iff A B, ?_, ?_, ?_⟩
  · rw [hdet, houter]
    cases hie : (interactions_for pr_diffs A).isEmpty with
    | true =>
      have hnilI : interactionsList pr_diffs A = [] := by
        rw [← interactions_for_eq pr_diffs A hnodup]
        exact List.isEmpty_iff.mp hie
      have hCB : callsFor A B = [] := hlist_nil B hB hnilI (fun h => hAB h.symm)
      simp [hCB]
    | false =>
      show (some (interactions_for pr_diffs A)).bind
          (fun si => si.lookup B.service_name) = _
      rw [Option.some_bind, interactions_for_eq pr_diffs A hnodup, hinner, hne]
      cases hce : (callsFor A B).isEmpty with
      | true => simp
      | false => simp
  · intro c hc hs
    unfold callsFor
    exact List.mem_append_left _ (List.mem_filterMap.mpr ⟨c, hc, by rw [hs]; rfl⟩)
  · intro hr
    unfold callsFor
    refine List.mem_append_right _ ?_
    rw [hr]
    simp
  · rw [hdet, houter]
    cases hie : (interactions_for pr_diffs A).isEmpty with
    | true =>
      have hnilI : interactionsList pr_diffs A = [] := by
        rw [← interactions_for_eq pr_diffs A hnodup]
        exact List.isEmpty_iff.mp hie
      exact iff_of_true rfl (fun B' hB' hne' => hlist_nil B' hB' hnilI hne')
    | false =>
      refine iff_of_false (by simp) ?_
      intro hall
      have hnilI : interactionsList pr_diffs A = [] := by
        apply List.eq_nil_iff_forall_not_mem.mpr
        intro q hq
        obtain ⟨B', hB', hent⟩ := List.mem_filterMap.mp hq
        unfold interactionEntryOf at hent
        by_cases hg : (!(B'.service_name == A.service_name) &&
            !(callsFor A B').isEmpty) = true
        · rw [if_pos hg] at hent
          rw [Bool.and_eq_true] at hg
          obtain ⟨hg1, hg2⟩ := hg
          have hne' : B'.service_name ≠ A.service_name := by
            intro he
            rw [he] at hg1
            simp at hg1
          have := hall B' hB' hne'
          rw [this] at hg2
          exact absurd hg2 (by simp)
        · rw [if_neg hg] at hent
          exact absurd hent (by simp)
      have : (interactions_for pr_diffs A).isEmpty = true := by
        rw [interactions_for_eq pr_diffs A hnodup, hnilI]
        rfl
      rw [this] at hie
      exact absurd hie (by simp)

/-- C9 witness: the two-service scenario where service `A` changes
`services/b-service/client.py` and the other service is named `b-service`. -/
theorem C9_service_interaction_evidence_witness :
    (((detect_service_interactions [fixturePRA, fixturePRB]).lookup "A").bind
        (fun si => si.lookup "b-service")
      = some ["File reference: services/b-service/client.py"]) ∧
    ("File reference: services/b-service/client.py"
      ∈ callsFor fixturePRA fixturePRB) := by
  have h := C9_service_interaction_evidence [fixturePRA, fixturePRB]
    (by decide) fixturePRA fixturePRB (by decide) (by decide) (by decide)
  constructor
  · have h1 := h.1
    have hc : callsFor fixturePRA fixturePRB
        = ["File reference: services/b-service/client.py"] := by decide
    rw [hc] at h1
    exact h1
  · exact h.2.2.1 fixtureClientChange (by decide) (by decide)

end Archy

